import Mathlib

/-!
# Verification of the adaptive audio-clustering pipeline

A shallow embedding of `src/backend/audio_clustering.py`: feature-vector
assembly (`extract_feature_vector`), validity filtering, the dataset-size
adaptive parameter tables for the density-based clusterer and the 2-D
embedder, cluster-center summarization and the output contract
(`perform_clustering`).  Machine floats are modelled by `FVal`: a rational
number, or the two non-finite classes (not-a-number, infinite) that the
validity filter screens out.  The clustering, embedding and scaling
collaborators are opaque functions passed in as parameters.
-/

/-- A floating-point value as the pipeline observes it: a finite numeric
value (modelled as a rational), a not-a-number, or an infinite value. -/
inductive FVal where
  | num (q : ℚ)
  | nan
  | inf
deriving DecidableEq

/-- Screening as by np.isnan and np.isinf: true exactly on finite numeric values. -/
def FVal.isFinite : FVal → Bool
  | .num _ => true
  | .nan => false
  | .inf => false

/-- The rational carried by a finite value (non-finite values, which the
filter has already excluded, map to a dummy 0). -/
def FVal.toQ : FVal → ℚ
  | .num q => q
  | .nan => 0
  | .inf => 0

/-- One snippet's `features` mapping: every recognized key of the input
contract, each optional (absent key = `none`). -/
structure FeaturesDict where
  mfcc_mean : Option (List FVal) := none
  mfcc_std : Option (List FVal) := none
  spectral_centroid_mean : Option FVal := none
  spectral_centroid_std : Option FVal := none
  spectral_bandwidth_mean : Option FVal := none
  spectral_bandwidth_std : Option FVal := none
  spectral_rolloff_mean : Option FVal := none
  spectral_rolloff_std : Option FVal := none
  zero_crossing_rate_mean : Option FVal := none
  zero_crossing_rate_std : Option FVal := none
  rms_mean : Option FVal := none
  rms_std : Option FVal := none
  chroma_mean : Option (List FVal) := none
  chroma_std : Option (List FVal) := none
  duration : Option FVal := none
  sample_rate : Option FVal := none
  audio_length : Option FVal := none
deriving DecidableEq

/-- An optional scalar appended if present (`if k in features_dict:
feature_vector.append(...)`). -/
def optScalar (o : Option FVal) : List FVal := o.toList

/-- The paired-sequence pattern of the source (`if 'mfcc_mean' in d:
extend(d['mfcc_mean']); extend(d['mfcc_std'])`): absent mean skips the
group; a present mean reads the std key unconditionally, so a missing std
raises a `KeyError`. -/
def pairedSeq : Option (List FVal) → Option (List FVal) → Except String (List FVal)
  | none, _ => .ok []
  | some m, some s => .ok (m ++ s)
  | some _, none => .error "KeyError"

/-- The source's extract_feature_vector: concatenate the recognized
feature groups in the fixed order (mfcc pair, six spectral scalars, two
rate scalars, two energy scalars, chroma pair, three metadata scalars). -/
def extract_feature_vector (f : FeaturesDict) : Except String (List FVal) := do
  let mfcc ← pairedSeq f.mfcc_mean f.mfcc_std
  let spectral := optScalar f.spectral_centroid_mean ++ optScalar f.spectral_centroid_std ++
    optScalar f.spectral_bandwidth_mean ++ optScalar f.spectral_bandwidth_std ++
    optScalar f.spectral_rolloff_mean ++ optScalar f.spectral_rolloff_std
  let rate := optScalar f.zero_crossing_rate_mean ++ optScalar f.zero_crossing_rate_std
  let energy := optScalar f.rms_mean ++ optScalar f.rms_std
  let chroma ← pairedSeq f.chroma_mean f.chroma_std
  let metadata := optScalar f.duration ++ optScalar f.sample_rate ++ optScalar f.audio_length
  pure (mfcc ++ spectral ++ rate ++ energy ++ chroma ++ metadata)

/-- One input record: an identifier and its features mapping. -/
structure Snippet where
  id : String
  features : FeaturesDict
deriving DecidableEq

/-- The per-snippet admission test of the filtering loop: assembly must
succeed and the assembled vector must contain no not-a-number or infinite
component. -/
def keepSnippet (s : Snippet) : Bool :=
  match extract_feature_vector s.features with
  | .error _ => false
  | .ok v => v.all FVal.isFinite

/-- The finite rational vector of an admitted snippet. -/
def snippetVec (s : Snippet) : List ℚ :=
  match extract_feature_vector s.features with
  | .error _ => []
  | .ok v => v.map FVal.toQ

/-- The filtering loop of `perform_clustering` (lines 73–86): enumerate the
batch from index `i`, skip a snippet whose assembly raises or whose vector
has a non-finite component, keep `(index, vector)` otherwise. -/
def collectValid : Nat → List Snippet → List (Nat × List ℚ)
  | _, [] => []
  | i, s :: rest =>
    match extract_feature_vector s.features with
    | .error _ => collectValid (i + 1) rest
    | .ok v =>
      if v.all FVal.isFinite then (i, v.map FVal.toQ) :: collectValid (i + 1) rest
      else collectValid (i + 1) rest

/-- The Valid-Sample Set with its original batch indices. -/
def validPairs (batch : List Snippet) : List (Nat × List ℚ) := collectValid 0 batch

/-- The parameters handed to the density-based clusterer. -/
structure HDBSCANParams where
  min_cluster_size : Nat
  min_samples : Nat
  cluster_selection_epsilon : ℚ
  alpha : ℚ
deriving DecidableEq

/-- The min_cluster_size branches of the source (lines 104–119). -/
def min_cluster_size_of (n : Nat) : Nat :=
  if n ≤ 10 then max 2 (n / 3) else if n < 20 then 3 else 3

/-- The min_samples branches of the source (lines 104–119). -/
def min_samples_of (n : Nat) : Nat :=
  if n ≤ 10 then 1 else if n < 20 then 2 else 2

/-- The cluster_selection_epsilon branches of the source (lines 122–131). -/
def epsilon_of (n : Nat) : ℚ :=
  if n ≤ 10 then 3/10 else 1/10

/-- The alpha branches of the source (lines 122–131). -/
def alpha_of (n : Nat) : ℚ :=
  if n ≤ 10 then 1/2 else 1

/-- The clustering parameters the Adviser selects for `n` valid samples. -/
def clusteringParams (n : Nat) : HDBSCANParams :=
  ⟨min_cluster_size_of n, min_samples_of n, epsilon_of n, alpha_of n⟩

/-- The spec's two-row clustering table (§4.4): the `10 < n < 20` and
`n ≥ 20` rows carry the same values, so the table collapses to a single
threshold at `n = 10`. -/
def specClusteringRow (n : Nat) : HDBSCANParams :=
  if n ≤ 10 then ⟨max 2 (n / 3), 1, 3/10, 1/2⟩ else ⟨3, 2, 1/10, 1⟩

/-- The n_neighbors table of the source (lines 162–176). -/
def n_neighbors_table (n : Nat) : Nat :=
  if n < 5 then max 1 (n - 1) else if n < 10 then min 5 (n - 1) else 15

/-- The min_dist values of the source (lines 162–176). -/
def min_dist_of (n : Nat) : ℚ :=
  if n < 5 then 1/2 else if n < 10 then 3/10 else 1/10

/-- The neighbor count actually used: the table value, then
the `min(·, n − 1)` and `max(1, ·)` adjustments (lines 178–180). -/
def n_neighbors_of (n : Nat) : Nat :=
  max 1 (min (n_neighbors_table n) (n - 1))

/-- The spec's embedding table with its post-adjustment clamp to
`[1, n − 1]` (§4.4). -/
def specNeighborCount (n : Nat) : Nat :=
  let t := if n < 5 then max 1 (n - 1) else if n < 10 then min 5 (n - 1) else 15
  max 1 (min t (n - 1))

/-- The output contract of `perform_clustering` (lines 197–204). -/
structure ClusterResults where
  cluster_labels : List ℤ
  umap_embeddings : List (ℚ × ℚ)
  cluster_centers : List (List ℚ)
  valid_indices : List Nat
  total_clusters : Nat
  noise_points : Nat
deriving DecidableEq

/-- Componentwise sum of two vectors. -/
def vecAdd (a b : List ℚ) : List ℚ := List.zipWith (· + ·) a b

/-- Columnwise arithmetic mean, as np.mean(rows, axis=0): of a nonempty
list of rows (the empty case never arises: each summarized label occurs). -/
def meanVec : List (List ℚ) → List ℚ
  | [] => []
  | r :: rs => (rs.foldl vecAdd r).map (fun x => x / ((r :: rs).length : ℚ))

/-- Row selection as X[labels == l]: the rows of `X` whose positional label equals `l`. -/
def rowsWithLabel (X : List (List ℚ)) (labels : List ℤ) (l : ℤ) : List (List ℚ) :=
  ((X.zip labels).filter (fun p => p.2 == l)).map Prod.fst

/-- The success path of `perform_clustering` (lines 93–204) on the already
filtered Valid-Sample Set: scale, cluster with the adaptive parameters,
summarize the distinct non-noise labels in ascending order, embed with the
clamped neighbor count, and assemble the result record. -/
def buildResults (scalerFn : List (List ℚ) → List (List ℚ))
    (clusterFn : HDBSCANParams → List (List ℚ) → List ℤ)
    (embedFn : Nat → ℚ → List (List ℚ) → List (ℚ × ℚ))
    (pairs : List (Nat × List ℚ)) : ClusterResults :=
  let feature_vectors := pairs.map Prod.snd
  let valid_indices := pairs.map Prod.fst
  let X_scaled := scalerFn feature_vectors
  let cluster_labels := clusterFn (clusteringParams feature_vectors.length) X_scaled
  let unique_labels := cluster_labels.dedup.filter (fun l => l != -1)
  let sorted_labels := unique_labels.insertionSort (· ≤ ·)
  let cluster_centers := sorted_labels.map (fun l => meanVec (rowsWithLabel X_scaled cluster_labels l))
  { cluster_labels := cluster_labels
    umap_embeddings :=
      embedFn (n_neighbors_of feature_vectors.length) (min_dist_of feature_vectors.length) X_scaled
    cluster_centers := cluster_centers
    valid_indices := valid_indices
    total_clusters := unique_labels.length
    noise_points := cluster_labels.count (-1) }

/-- The top-level perform_clustering: filter the batch, fail with the `NoValidData`
error when nothing remains, otherwise run the success path. -/
def perform_clustering (scalerFn : List (List ℚ) → List (List ℚ))
    (clusterFn : HDBSCANParams → List (List ℚ) → List ℤ)
    (embedFn : Nat → ℚ → List (List ℚ) → List (ℚ × ℚ))
    (batch : List Snippet) : Except String ClusterResults :=
  let pairs := validPairs batch
  let feature_vectors := pairs.map Prod.snd
  if feature_vectors.isEmpty then .error "No valid feature vectors found"
  else .ok (buildResults scalerFn clusterFn embedFn pairs)

/-- Mean of one feature column (`StandardScaler` centering statistic). -/
def colMean (xs : List ℚ) : ℚ := xs.sum / xs.length

/-- Population variance of one feature column. -/
def colVar (xs : List ℚ) : ℚ := (xs.map (fun x => (x - colMean xs) ^ 2)).sum / xs.length

/-- Modelled from the spec: the Normalizer is sklearn's `StandardScaler`,
invoked at line 97 of the source but defined outside this repository.
Section 4.3 describes it as per-column standardization whose denominator is
guarded — a zero (or near-zero) standard deviation is replaced by the
identity scale `1`.  The standard deviation itself is kept abstract as any
value `std` vanishing exactly on zero-variance columns. -/
def scaleOf (std : ℚ) : ℚ := if std = 0 then 1 else std

/-- Modelled from the spec: one column standardized — subtract the column
mean, divide by the guarded denominator. -/
def standardizeCol (std : ℚ) (xs : List ℚ) : List ℚ :=
  xs.map (fun x => (x - colMean xs) / scaleOf std)

/-- A trivial scaling collaborator for concrete instantiations. -/
def idScaler : List (List ℚ) → List (List ℚ) := fun X => X

/-- A trivial clustering collaborator: every row gets label 0. -/
def constClusterer : HDBSCANParams → List (List ℚ) → List ℤ :=
  fun _ X => X.map (fun _ => 0)

/-- A trivial embedding collaborator: every row maps to the origin. -/
def constEmbedder : Nat → ℚ → List (List ℚ) → List (ℚ × ℚ) :=
  fun _ _ X => X.map (fun _ => (0, 0))

/-- A features mapping with no recognized feature group present. -/
def noFeatures : FeaturesDict := {}

/-- A snippet with an empty features mapping. -/
def emptySnippet : Snippet := ⟨"empty", noFeatures⟩

/-- A snippet whose assembled vector is the single finite value 1. -/
def soloSnippet : Snippet := ⟨"solo", { duration := some (.num 1) }⟩

/-- A second well-formed snippet, feature value 3. -/
def otherSnippet : Snippet := ⟨"other", { duration := some (.num 3) }⟩

/-- A malformed snippet: mfcc_mean present, mfcc_std absent, so assembly
raises. -/
def badSnippet : Snippet := ⟨"bad", { mfcc_mean := some [.num 1] }⟩

/-- A snippet whose vector carries a not-a-number component. -/
def nanSnippet : Snippet := ⟨"nan", { duration := some .nan }⟩

/-- A two-snippet batch of well-formed inputs. -/
def twoBatch : List Snippet := [soloSnippet, otherSnippet]

/-- One step of the filtering loop, phrased through the admission test. -/
theorem collectValid_cons (i : Nat) (s : Snippet) (rest : List Snippet) :
    collectValid i (s :: rest) =
      if keepSnippet s then (i, snippetVec s) :: collectValid (i + 1) rest
      else collectValid (i + 1) rest := by
  simp only [collectValid]
  cases h : extract_feature_vector s.features with
  | error e => simp [keepSnippet, snippetVec, h]
  | ok v => by_cases hv : v.all FVal.isFinite <;> simp [keepSnippet, snippetVec, h, hv]

/-- Starting the enumeration at `i` only shifts the recorded indices. -/
theorem collectValid_shift (i : Nat) (xs : List Snippet) :
    collectValid i xs = (collectValid 0 xs).map (fun p => (p.1 + i, p.2)) := by
  induction xs generalizing i with
  | nil => simp [collectValid]
  | cons s rest ih =>
    rw [collectValid_cons, collectValid_cons]
    by_cases h : keepSnippet s
    all_goals
      simp only [h, if_true, if_false, Bool.false_eq_true, ih (i + 1), ih 1, List.map_map,
        List.map_cons, ite_true, ite_false]
    · refine List.cons_eq_cons.mpr ⟨by simp, ?_⟩
      apply List.map_congr_left
      intro p _
      simp only [Function.comp_apply, Prod.mk.injEq, and_true]
      omega
    · apply List.map_congr_left
      intro p _
      simp only [Function.comp_apply, Prod.mk.injEq, and_true]
      omega

/-- The filtering loop distributes over batch concatenation. -/
theorem collectValid_append (i : Nat) (xs ys : List Snippet) :
    collectValid i (xs ++ ys) = collectValid i xs ++ collectValid (i + xs.length) ys := by
  induction xs generalizing i with
  | nil => simp [collectValid]
  | cons s rest ih =>
    have harith : i + (s :: rest).length = i + 1 + rest.length := by
      simp only [List.length_cons]
      omega
    rw [List.cons_append, collectValid_cons, collectValid_cons, harith]
    by_cases h : keepSnippet s <;> simp [h, ih (i + 1)]

/-- Every recorded index lies in `[i, i + batch length)`. -/
theorem collectValid_fst_bounds (i : Nat) (xs : List Snippet) :
    ∀ p ∈ collectValid i xs, i ≤ p.1 ∧ p.1 < i + xs.length := by
  induction xs generalizing i with
  | nil => simp [collectValid]
  | cons s rest ih =>
    rw [collectValid_cons]
    by_cases h : keepSnippet s
    · simp only [h, if_true]
      intro p hp
      rcases List.mem_cons.mp hp with rfl | hp
      · simp only [List.length_cons]; omega
      · have := ih (i + 1) p hp
        simp only [List.length_cons]
        omega
    · simp only [h, if_false]
      intro p hp
      have := ih (i + 1) p hp
      simp only [List.length_cons]
      omega

/-- The recorded indices are strictly increasing. -/
theorem collectValid_sorted (i : Nat) (xs : List Snippet) :
    List.Sorted (· < ·) ((collectValid i xs).map Prod.fst) := by
  induction xs generalizing i with
  | nil => simp [collectValid]
  | cons s rest ih =>
    rw [collectValid_cons]
    by_cases h : keepSnippet s
    · simp only [h, if_true, List.map_cons]
      refine List.sorted_cons.mpr ⟨?_, ih (i + 1)⟩
      intro b hb
      rcases List.mem_map.mp hb with ⟨p, hp, rfl⟩
      have := (collectValid_fst_bounds (i + 1) rest p hp).1
      omega
    · simpa [h] using ih (i + 1)

/-- The pipeline returns the NoValidData error exactly when the
Valid-Sample Set is empty. -/
theorem perform_error_iff (sFn : List (List ℚ) → List (List ℚ))
    (cFn : HDBSCANParams → List (List ℚ) → List ℤ)
    (eFn : Nat → ℚ → List (List ℚ) → List (ℚ × ℚ)) (batch : List Snippet) :
    perform_clustering sFn cFn eFn batch = .error "No valid feature vectors found" ↔
      validPairs batch = [] := by
  unfold perform_clustering
  rcases h : validPairs batch with _ | ⟨p, ps⟩ <;> simp [h]

/-- With a nonempty Valid-Sample Set the pipeline returns the assembled
Result of the success path. -/
theorem perform_ok_of_ne (sFn : List (List ℚ) → List (List ℚ))
    (cFn : HDBSCANParams → List (List ℚ) → List ℤ)
    (eFn : Nat → ℚ → List (List ℚ) → List (ℚ × ℚ)) {batch : List Snippet}
    (h : validPairs batch ≠ []) :
    perform_clustering sFn cFn eFn batch =
      .ok (buildResults sFn cFn eFn (validPairs batch)) := by
  unfold perform_clustering
  rcases hv : validPairs batch with _ | ⟨p, ps⟩
  · exact absurd hv h
  · simp

/-- A produced Result is the success path's record, and the Valid-Sample
Set behind it is nonempty. -/
theorem perform_ok_elim {sFn : List (List ℚ) → List (List ℚ)}
    {cFn : HDBSCANParams → List (List ℚ) → List ℤ}
    {eFn : Nat → ℚ → List (List ℚ) → List (ℚ × ℚ)} {batch : List Snippet}
    {r : ClusterResults}
    (hOk : perform_clustering sFn cFn eFn batch = .ok r) :
    r = buildResults sFn cFn eFn (validPairs batch) ∧ validPairs batch ≠ [] := by
  by_cases h : validPairs batch = []
  · unfold perform_clustering at hOk
    rw [h] at hOk
    simp at hOk
  · rw [perform_ok_of_ne sFn cFn eFn h] at hOk
    exact ⟨(Except.ok.inj hOk).symm, h⟩

/-- Bind on a successful Except value. -/
theorem exceptBind_ok {α β ε : Type} (a : α) (f : α → Except ε β) :
    (Except.ok a >>= f) = f a := rfl

/-- Bind on a failed Except value propagates the error. -/
theorem exceptBind_error {α β ε : Type} (e : ε) (f : α → Except ε β) :
    ((Except.error e : Except ε α) >>= f) = Except.error e := rfl

/-- C1: for every valid-sample count `n`, the clustering parameters are
exactly the adaptive table's — `n ≤ 10` gives `(max 2 (n / 3), 1, 0.3,
0.5)` and `n > 10` gives `(3, 2, 0.1, 1.0)` — so the switch from the
small-dataset row to the medium-dataset row happens exactly between
`n = 10` and `n = 11`. -/
theorem clusteringParams_eq_spec_table :
    (∀ n : Nat, clusteringParams n = specClusteringRow n) ∧
    clusteringParams 10 = ⟨3, 1, 3/10, 1/2⟩ ∧
    clusteringParams 11 = ⟨3, 2, 1/10, 1⟩ := by
  refine ⟨?_, rfl, rfl⟩
  intro n
  unfold clusteringParams specClusteringRow min_cluster_size_of min_samples_of epsilon_of alpha_of
  by_cases h : n ≤ 10
  · simp [h]
  · by_cases h2 : n < 20 <;> simp [h, h2]

/-- C2: for every valid-sample count `n ≥ 2`, the embedding neighbor count
actually used equals the spec's table value clamped to `[1, n − 1]`, hence
is at least 1 and strictly less than `n`. -/
theorem neighborCount_clamped (n : Nat) (h : 2 ≤ n) :
    n_neighbors_of n = specNeighborCount n ∧
    1 ≤ n_neighbors_of n ∧ n_neighbors_of n < n := by
  refine ⟨rfl, ?_, ?_⟩
  · unfold n_neighbors_of
    omega
  · unfold n_neighbors_of n_neighbors_table
    by_cases h1 : n < 5
    · simp only [h1, ite_true, if_true]
      omega
    · by_cases h2 : n < 10 <;>
        simp only [h1, h2, ite_true, ite_false, if_true, if_false] <;> omega

/-- Witness for C2 at `n = 16` (a size the spec singles out for the
`n ≥ 10` branch of the clamp). -/
theorem neighborCount_clamped_witness :
    n_neighbors_of 16 = specNeighborCount 16 ∧
    1 ≤ n_neighbors_of 16 ∧ n_neighbors_of 16 < 16 :=
  neighborCount_clamped 16 (by omega)

/-- C5: the pipeline fails with the NoValidData error exactly when zero
valid samples remain after filtering, and in that case no Result is
produced at all; with at least one valid sample the error is never
raised. -/
theorem noValidData_iff_empty_validset (sFn : List (List ℚ) → List (List ℚ))
    (cFn : HDBSCANParams → List (List ℚ) → List ℤ)
    (eFn : Nat → ℚ → List (List ℚ) → List (ℚ × ℚ)) (batch : List Snippet) :
    (perform_clustering sFn cFn eFn batch = .error "No valid feature vectors found" ↔
      validPairs batch = []) ∧
    (validPairs batch = [] → ∀ r, perform_clustering sFn cFn eFn batch ≠ .ok r) := by
  refine ⟨perform_error_iff sFn cFn eFn batch, ?_⟩
  intro h r hok
  exact (perform_ok_elim hok).2 h

/-- C9: the normalizer's guarded denominator is never zero; a zero-variance
column receives the identity scale `1` (the column passes the division
step unchanged), and any other column is divided by its standard
deviation. -/
theorem normalizer_zero_variance_guard (xs : List ℚ) (std : ℚ)
    (hstd : std = 0 ↔ colVar xs = 0) :
    scaleOf std ≠ 0 ∧
    (colVar xs = 0 → scaleOf std = 1 ∧
      standardizeCol std xs = xs.map (fun x => x - colMean xs)) ∧
    (colVar xs ≠ 0 → standardizeCol std xs = xs.map (fun x => (x - colMean xs) / std)) := by
  refine ⟨?_, ?_, ?_⟩
  · rw [scaleOf]
    split_ifs with h
    · exact one_ne_zero
    · exact h
  · intro hv
    have h0 : std = 0 := hstd.mpr hv
    subst h0
    refine ⟨by simp [scaleOf], ?_⟩
    simp [standardizeCol, scaleOf]
  · intro hv
    have h0 : std ≠ 0 := fun h => hv (hstd.mp h)
    simp [standardizeCol, scaleOf, h0]

/-- Witness for C9: the constant column `[2, 2]`, whose variance and
deviation both vanish. -/
theorem normalizer_guard_witness :
    scaleOf 0 ≠ 0 ∧
    (colVar [2, 2] = 0 → scaleOf 0 = 1 ∧
      standardizeCol 0 [2, 2] = [2, 2].map (fun x => x - colMean [2, 2])) ∧
    (colVar [2, 2] ≠ 0 →
      standardizeCol 0 [2, 2] = [2, 2].map (fun x => (x - colMean [2, 2]) / 0)) :=
  normalizer_zero_variance_guard [2, 2] 0 (by norm_num [colVar, colMean])

/-- C10: in assembly a mean sequence present without its deviation sequence
raises (and such a snippet is never admitted to the Valid-Sample Set),
whereas a deviation sequence present without its mean is silently ignored
and contributes nothing. -/
theorem paired_group_one_directional (f : FeaturesDict) :
    (f.mfcc_mean.isSome = true → f.mfcc_std = none →
      (extract_feature_vector f).toOption = none) ∧
    (f.mfcc_mean = none →
      extract_feature_vector f = extract_feature_vector { f with mfcc_std := none }) ∧
    (f.chroma_mean.isSome = true → f.chroma_std = none →
      (extract_feature_vector f).toOption = none) ∧
    (f.chroma_mean = none →
      extract_feature_vector f = extract_feature_vector { f with chroma_std := none }) ∧
    (∀ s : Snippet, (extract_feature_vector s.features).toOption = none →
      keepSnippet s = false) := by
  refine ⟨?_, ?_, ?_, ?_, ?_⟩
  · intro hm hs
    rcases Option.isSome_iff_exists.mp hm with ⟨m, hm2⟩
    unfold extract_feature_vector
    rw [hm2, hs]
    rfl
  · intro hm
    obtain ⟨mm, ms, p1, p2, p3, p4, p5, p6, z1, z2, r1, r2, cm, cs, d1, d2, d3⟩ := f
    simp only at hm
    subst hm
    rfl
  · intro hm hs
    rcases Option.isSome_iff_exists.mp hm with ⟨c, hc⟩
    unfold extract_feature_vector
    rw [hc, hs]
    cases hp : pairedSeq f.mfcc_mean f.mfcc_std with
    | error e => rw [exceptBind_error]; rfl
    | ok v => rw [exceptBind_ok]; rfl
  · intro hm
    obtain ⟨mm, ms, p1, p2, p3, p4, p5, p6, z1, z2, r1, r2, cm, cs, d1, d2, d3⟩ := f
    simp only at hm
    subst hm
    cases hp : pairedSeq mm ms with
    | error e =>
      show (pairedSeq mm ms >>= _) = (pairedSeq mm ms >>= _)
      rw [hp, exceptBind_error, exceptBind_error]
    | ok v =>
      show (pairedSeq mm ms >>= _) = (pairedSeq mm ms >>= _)
      rw [hp, exceptBind_ok, exceptBind_ok]
      rfl
  · intro s hs
    unfold keepSnippet
    cases h : extract_feature_vector s.features with
    | error e => rfl
    | ok v =>
      rw [h] at hs
      simp [Except.toOption] at hs

/-- C3 (the code as written): a batch with exactly one valid snippet is not
rejected — the pipeline produces a Result, and the neighbor count it hands
the embedding engine is 1, which is not strictly less than the sample
count 1 that the engine requires (the code's own comment says the adjusted
value "must be < N"). -/
theorem degenerate_input_not_rejected :
    (validPairs [soloSnippet]).length = 1 ∧
    n_neighbors_of 1 = 1 ∧
    ¬ n_neighbors_of 1 < 1 ∧
    (perform_clustering idScaler constClusterer constEmbedder [soloSnippet]).toOption.isSome
      = true := by
  refine ⟨rfl, rfl, by decide, rfl⟩

/-- C4 counterexample: on a batch of two snippets whose features mappings
hold no recognized group, every assembled vector is the zero-length vector,
yet both snippets are admitted to the Valid-Sample Set (a zero-length
vector vacuously has no not-a-number or infinite component) and the
pipeline returns a Result instead of the NoValidData failure. -/
theorem empty_features_counterexample :
    extract_feature_vector noFeatures = .ok [] ∧
    validPairs [emptySnippet, emptySnippet] = [(0, []), (1, [])] ∧
    (perform_clustering idScaler constClusterer constEmbedder
      [emptySnippet, emptySnippet]).toOption.isSome = true := by
  refine ⟨rfl, rfl, rfl⟩

/-- All-empty feature mappings make the filtering loop keep every snippet
with a zero-length vector. -/
theorem collectValid_noFeatures (i : Nat) (xs : List Snippet)
    (h : ∀ s ∈ xs, s.features = noFeatures) :
    collectValid i xs = (List.range xs.length).map (fun j => (i + j, ([] : List ℚ))) := by
  induction xs generalizing i with
  | nil => simp [collectValid]
  | cons s rest ih =>
    have hs : s.features = noFeatures := h s (List.mem_cons_self s rest)
    have hk : keepSnippet s = true := by rw [keepSnippet, hs]; rfl
    have hv : snippetVec s = [] := by rw [snippetVec, hs]; rfl
    rw [collectValid_cons, hk, if_pos rfl, hv,
      ih (i + 1) (fun t ht => h t (List.mem_cons_of_mem s ht))]
    simp only [List.length_cons, List.range_succ_eq_map, List.map_cons, List.map_map]
    refine List.cons_eq_cons.mpr ⟨by simp, ?_⟩
    apply List.map_congr_left
    intro j _
    simp only [Function.comp_apply, Prod.mk.injEq, and_true]
    omega

/-- C4 amended: when no snippet of the batch carries a recognized feature
group, every assembled vector is zero-length, yet every snippet is
admitted (zero-length vectors pass the finiteness filter vacuously), and
for a nonempty batch the pipeline produces a Result — the NoValidData
failure is not reached. -/
theorem empty_features_batch_amended (batch : List Snippet)
    (h : ∀ s ∈ batch, s.features = noFeatures) :
    validPairs batch = (List.range batch.length).map (fun j => (j, ([] : List ℚ))) ∧
    (∀ s ∈ batch, extract_feature_vector s.features = .ok []) ∧
    (batch ≠ [] →
      ∀ (sFn : List (List ℚ) → List (List ℚ))
        (cFn : HDBSCANParams → List (List ℚ) → List ℤ)
        (eFn : Nat → ℚ → List (List ℚ) → List (ℚ × ℚ)),
        ∃ r, perform_clustering sFn cFn eFn batch = .ok r) := by
  have hvp : validPairs batch = (List.range batch.length).map (fun j => (j, ([] : List ℚ))) := by
    rw [validPairs, collectValid_noFeatures 0 batch h]
    apply List.map_congr_left
    intro j _
    simp
  refine ⟨hvp, ?_, ?_⟩
  · intro s hsmem
    rw [h s hsmem]
    rfl
  · intro hne sFn cFn eFn
    refine ⟨_, perform_ok_of_ne sFn cFn eFn ?_⟩
    rw [hvp]
    simp [List.map_eq_nil_iff, List.range_eq_nil, List.length_eq_zero, hne]

/-- Projection of the success record: the retained original indices. -/
theorem buildResults_valid_indices (sFn : List (List ℚ) → List (List ℚ))
    (cFn : HDBSCANParams → List (List ℚ) → List ℤ)
    (eFn : Nat → ℚ → List (List ℚ) → List (ℚ × ℚ)) (pairs : List (Nat × List ℚ)) :
    (buildResults sFn cFn eFn pairs).valid_indices = pairs.map Prod.fst := rfl

/-- Projection of the success record: the labels the clusterer returned. -/
theorem buildResults_cluster_labels (sFn : List (List ℚ) → List (List ℚ))
    (cFn : HDBSCANParams → List (List ℚ) → List ℤ)
    (eFn : Nat → ℚ → List (List ℚ) → List (ℚ × ℚ)) (pairs : List (Nat × List ℚ)) :
    (buildResults sFn cFn eFn pairs).cluster_labels =
      cFn (clusteringParams (pairs.map Prod.snd).length) (sFn (pairs.map Prod.snd)) := rfl

/-- Projection of the success record: the embedding coordinates. -/
theorem buildResults_umap (sFn : List (List ℚ) → List (List ℚ))
    (cFn : HDBSCANParams → List (List ℚ) → List ℤ)
    (eFn : Nat → ℚ → List (List ℚ) → List (ℚ × ℚ)) (pairs : List (Nat × List ℚ)) :
    (buildResults sFn cFn eFn pairs).umap_embeddings =
      eFn (n_neighbors_of (pairs.map Prod.snd).length)
        (min_dist_of (pairs.map Prod.snd).length) (sFn (pairs.map Prod.snd)) := rfl

/-- Projection of the success record: the distinct non-noise label count. -/
theorem buildResults_total (sFn : List (List ℚ) → List (List ℚ))
    (cFn : HDBSCANParams → List (List ℚ) → List ℤ)
    (eFn : Nat → ℚ → List (List ℚ) → List (ℚ × ℚ)) (pairs : List (Nat × List ℚ)) :
    (buildResults sFn cFn eFn pairs).total_clusters =
      ((buildResults sFn cFn eFn pairs).cluster_labels.dedup.filter (fun l => l != -1)).length :=
  rfl

/-- Projection of the success record: the noise count. -/
theorem buildResults_noise (sFn : List (List ℚ) → List (List ℚ))
    (cFn : HDBSCANParams → List (List ℚ) → List ℤ)
    (eFn : Nat → ℚ → List (List ℚ) → List (ℚ × ℚ)) (pairs : List (Nat × List ℚ)) :
    (buildResults sFn cFn eFn pairs).noise_points =
      (buildResults sFn cFn eFn pairs).cluster_labels.count (-1) := rfl

/-- Projection of the success record: the centers, one per sorted distinct
non-noise label. -/
theorem buildResults_centers (sFn : List (List ℚ) → List (List ℚ))
    (cFn : HDBSCANParams → List (List ℚ) → List ℤ)
    (eFn : Nat → ℚ → List (List ℚ) → List (ℚ × ℚ)) (pairs : List (Nat × List ℚ)) :
    (buildResults sFn cFn eFn pairs).cluster_centers =
      (((buildResults sFn cFn eFn pairs).cluster_labels.dedup.filter
          (fun l => l != -1)).insertionSort (· ≤ ·)).map
        (fun l => meanVec (rowsWithLabel (sFn (pairs.map Prod.snd))
          (buildResults sFn cFn eFn pairs).cluster_labels l)) := rfl

/-- The sorted distinct non-noise labels: sorted strictly, carrying exactly
the non-noise labels, with as many entries as the set of non-noise labels. -/
theorem sorted_nonNoise_spec (cl : List ℤ) :
    List.Sorted (· < ·) ((cl.dedup.filter (fun l => l != -1)).insertionSort (· ≤ ·)) ∧
    (∀ l : ℤ, l ∈ (cl.dedup.filter (fun l => l != -1)).insertionSort (· ≤ ·) ↔
      (l ∈ cl ∧ l ≠ -1)) ∧
    ((cl.dedup.filter (fun l => l != -1)).insertionSort (· ≤ ·)).length =
      (cl.dedup.filter (fun l => l != -1)).length ∧
    (cl.dedup.filter (fun l => l != -1)).length =
      (cl.filter (fun l => l != -1)).toFinset.card := by
  have hnodup : (cl.dedup.filter (fun l => l != -1)).Nodup :=
    (List.nodup_dedup cl).filter _
  have hperm := List.perm_insertionSort (· ≤ ·) (cl.dedup.filter (fun l => l != -1))
  refine ⟨?_, ?_, hperm.length_eq, ?_⟩
  · exact (List.sorted_insertionSort (· ≤ ·) _).lt_of_le (hperm.nodup_iff.mpr hnodup)
  · intro l
    rw [hperm.mem_iff]
    simp [List.mem_filter, List.mem_dedup, bne_iff_ne]
  · have h1 : (cl.dedup.filter (fun l => l != -1)).toFinset =
        (cl.filter (fun l => l != -1)).toFinset := by
      ext x
      simp [List.mem_filter, List.mem_dedup]
    rw [← List.toFinset_card_of_nodup hnodup, h1]

/-- C6: a snippet whose assembly raises or whose vector holds a non-finite
value is dropped on its own: every other snippet is still processed, in
order and under its original batch index, and the batch-fatal NoValidData
error occurs exactly when all the other snippets are invalid too — a
per-sample problem alone never aborts the batch. -/
theorem per_sample_skip_is_local (pre post : List Snippet) (b : Snippet)
    (sFn : List (List ℚ) → List (List ℚ))
    (cFn : HDBSCANParams → List (List ℚ) → List ℤ)
    (eFn : Nat → ℚ → List (List ℚ) → List (ℚ × ℚ))
    (hb : keepSnippet b = false) :
    validPairs (pre ++ b :: post) =
      validPairs pre ++ (validPairs post).map (fun p => (p.1 + (pre.length + 1), p.2)) ∧
    (perform_clustering sFn cFn eFn (pre ++ b :: post) =
        .error "No valid feature vectors found" ↔
      (validPairs pre = [] ∧ validPairs post = [])) := by
  have hskip : collectValid pre.length (b :: post) = collectValid (pre.length + 1) post := by
    rw [collectValid_cons, hb]
    simp
  have heq : validPairs (pre ++ b :: post) =
      validPairs pre ++ (validPairs post).map (fun p => (p.1 + (pre.length + 1), p.2)) := by
    rw [validPairs, collectValid_append 0 pre (b :: post), Nat.zero_add, hskip,
      collectValid_shift (pre.length + 1) post]
    rfl
  refine ⟨heq, ?_⟩
  rw [perform_error_iff, heq]
  simp [List.append_eq_nil, List.map_eq_nil_iff]

/-- Witness for C6: a malformed snippet sitting between two well-formed
ones is the only one dropped, and the batch goes on. -/
theorem per_sample_skip_witness :
    validPairs ([soloSnippet] ++ badSnippet :: [otherSnippet]) =
      validPairs [soloSnippet] ++
        (validPairs [otherSnippet]).map (fun p => (p.1 + ([soloSnippet].length + 1), p.2)) ∧
    (perform_clustering idScaler constClusterer constEmbedder
        ([soloSnippet] ++ badSnippet :: [otherSnippet]) =
        .error "No valid feature vectors found" ↔
      (validPairs [soloSnippet] = [] ∧ validPairs [otherSnippet] = [])) :=
  per_sample_skip_is_local [soloSnippet] [otherSnippet] badSnippet idScaler constClusterer
    constEmbedder rfl

/-- C7: a produced Result carries equally many valid indices, cluster
labels and embedding coordinates (under the collaborators' one output per
row contracts), and its valid indices are strictly increasing, pairwise
distinct and in range of the original batch. -/
theorem result_lengths_and_indices (sFn : List (List ℚ) → List (List ℚ))
    (cFn : HDBSCANParams → List (List ℚ) → List ℤ)
    (eFn : Nat → ℚ → List (List ℚ) → List (ℚ × ℚ))
    (batch : List Snippet) (r : ClusterResults)
    (hOk : perform_clustering sFn cFn eFn batch = .ok r)
    (hS : ∀ X, (sFn X).length = X.length)
    (hC : ∀ p X, (cFn p X).length = X.length)
    (hE : ∀ k d X, (eFn k d X).length = X.length) :
    r.valid_indices.length = r.cluster_labels.length ∧
    r.cluster_labels.length = r.umap_embeddings.length ∧
    List.Sorted (· < ·) r.valid_indices ∧
    (∀ i ∈ r.valid_indices, i < batch.length) ∧
    r.valid_indices.Nodup := by
  obtain ⟨hr, -⟩ := perform_ok_elim hOk
  subst hr
  rw [buildResults_valid_indices, buildResults_cluster_labels, buildResults_umap]
  refine ⟨by simp [hC, hS], by simp [hC, hS, hE], collectValid_sorted 0 batch, ?_, ?_⟩
  · intro i hi
    rcases List.mem_map.mp hi with ⟨p, hp, rfl⟩
    have := (collectValid_fst_bounds 0 batch p hp).2
    omega
  · exact List.Pairwise.imp (fun hab => Nat.ne_of_lt hab) (collectValid_sorted 0 batch)

/-- Witness for C7 on a concrete two-snippet batch with trivial
collaborators. -/
theorem result_lengths_witness :
    (buildResults idScaler constClusterer constEmbedder (validPairs twoBatch)).valid_indices.length
        = (buildResults idScaler constClusterer constEmbedder
            (validPairs twoBatch)).cluster_labels.length ∧
    (buildResults idScaler constClusterer constEmbedder (validPairs twoBatch)).cluster_labels.length
        = (buildResults idScaler constClusterer constEmbedder
            (validPairs twoBatch)).umap_embeddings.length ∧
    List.Sorted (· < ·)
      (buildResults idScaler constClusterer constEmbedder (validPairs twoBatch)).valid_indices ∧
    (∀ i ∈ (buildResults idScaler constClusterer constEmbedder
        (validPairs twoBatch)).valid_indices, i < twoBatch.length) ∧
    (buildResults idScaler constClusterer constEmbedder (validPairs twoBatch)).valid_indices.Nodup :=
  result_lengths_and_indices idScaler constClusterer constEmbedder twoBatch
    (buildResults idScaler constClusterer constEmbedder (validPairs twoBatch)) rfl
    (fun X => rfl) (fun p X => by simp [constClusterer])
    (fun k d X => by simp [constEmbedder])

/-- C8: a produced Result's total_clusters counts the distinct non-noise
labels, noise_points counts the occurrences of −1, and cluster_centers has
exactly one entry per distinct non-noise label, listed by ascending label,
each entry the columnwise arithmetic mean of the scaled valid rows that
carry that label (noise rows enter no center). -/
theorem label_center_consistency (sFn : List (List ℚ) → List (List ℚ))
    (cFn : HDBSCANParams → List (List ℚ) → List ℤ)
    (eFn : Nat → ℚ → List (List ℚ) → List (ℚ × ℚ))
    (batch : List Snippet) (r : ClusterResults)
    (hOk : perform_clustering sFn cFn eFn batch = .ok r) :
    r.total_clusters = (r.cluster_labels.filter (fun l => l != -1)).toFinset.card ∧
    r.noise_points = r.cluster_labels.count (-1) ∧
    r.cluster_centers.length = r.total_clusters ∧
    ∃ ls : List ℤ, List.Sorted (· < ·) ls ∧
      (∀ l : ℤ, l ∈ ls ↔ (l ∈ r.cluster_labels ∧ l ≠ -1)) ∧
      r.cluster_centers = ls.map (fun l =>
        meanVec (rowsWithLabel (sFn ((validPairs batch).map Prod.snd))
          r.cluster_labels l)) := by
  obtain ⟨hr, -⟩ := perform_ok_elim hOk
  subst hr
  obtain ⟨hsort, hmem, hlen, hcard⟩ :=
    sorted_nonNoise_spec (buildResults sFn cFn eFn (validPairs batch)).cluster_labels
  refine ⟨?_, buildResults_noise sFn cFn eFn (validPairs batch), ?_, ?_⟩
  · rw [buildResults_total, hcard]
  · rw [buildResults_centers, List.length_map, hlen, buildResults_total]
  · exact ⟨_, hsort, hmem, buildResults_centers sFn cFn eFn (validPairs batch)⟩

/-- Witness for C8 on a concrete two-snippet batch with trivial
collaborators. -/
theorem label_center_witness :
    (buildResults idScaler constClusterer constEmbedder (validPairs twoBatch)).total_clusters
        = ((buildResults idScaler constClusterer constEmbedder
            (validPairs twoBatch)).cluster_labels.filter (fun l => l != -1)).toFinset.card ∧
    (buildResults idScaler constClusterer constEmbedder (validPairs twoBatch)).noise_points
        = (buildResults idScaler constClusterer constEmbedder
            (validPairs twoBatch)).cluster_labels.count (-1) ∧
    (buildResults idScaler constClusterer constEmbedder (validPairs twoBatch)).cluster_centers.length
        = (buildResults idScaler constClusterer constEmbedder
            (validPairs twoBatch)).total_clusters ∧
    (∃ ls : List ℤ, List.Sorted (· < ·) ls ∧
      (∀ l : ℤ, l ∈ ls ↔
        (l ∈ (buildResults idScaler constClusterer constEmbedder
          (validPairs twoBatch)).cluster_labels ∧ l ≠ -1)) ∧
      (buildResults idScaler constClusterer constEmbedder (validPairs twoBatch)).cluster_centers
        = ls.map (fun l =>
            meanVec (rowsWithLabel (idScaler ((validPairs twoBatch).map Prod.snd))
              (buildResults idScaler constClusterer constEmbedder
                (validPairs twoBatch)).cluster_labels l))) :=
  label_center_consistency idScaler constClusterer constEmbedder twoBatch
    (buildResults idScaler constClusterer constEmbedder (validPairs twoBatch)) rfl

/-- Witness for the amended C4 on a concrete two-snippet batch of empty
feature mappings. -/
theorem empty_features_batch_amended_witness :
    validPairs [emptySnippet, emptySnippet] =
      (List.range [emptySnippet, emptySnippet].length).map (fun j => (j, ([] : List ℚ))) ∧
    (∀ s ∈ [emptySnippet, emptySnippet], extract_feature_vector s.features = .ok []) ∧
    ([emptySnippet, emptySnippet] ≠ [] →
      ∀ (sFn : List (List ℚ) → List (List ℚ))
        (cFn : HDBSCANParams → List (List ℚ) → List ℤ)
        (eFn : Nat → ℚ → List (List ℚ) → List (ℚ × ℚ)),
        ∃ r, perform_clustering sFn cFn eFn [emptySnippet, emptySnippet] = .ok r) :=
  empty_features_batch_amended [emptySnippet, emptySnippet] (by
    intro s hs
    rcases List.mem_cons.mp hs with rfl | hs2
    · rfl
    · rcases List.mem_cons.mp hs2 with rfl | hs3
      · rfl
      · exact absurd hs3 (List.not_mem_nil s))
